import Mathlib

/-!
Shallow embedding of `src/core/ytdlp_manager.py` (class `YTDLPManager`).

The external world is passed in explicitly:
* a process invocation's observable result is an `Outcome`
  (return code, stdout, stderr), matching `_run_command`, which converts
  timeouts and spawn failures into a `(-1, "", msg)` outcome;
* `json.loads` applied to a single stdout line is a parameter
  `parse : String → Option Json` (`none` = `json.JSONDecodeError`);
* the filesystem existence check used by `check_availability` is a
  parameter `fsExists : String → Bool`.

Python strings are modelled by `String` viewed as its list of characters;
Python runtime errors that the source does not catch (`AttributeError`,
`TypeError`, `KeyError`) are modelled with `Except PyErr`.
-/

namespace YTSage

/-- Observable result of one external process invocation, as produced by
`YTDLPManager._run_command`: `(return_code, stdout, stderr)`. -/
structure Outcome where
  returncode : Int
  stdout : String
  stderr : String
deriving DecidableEq

/-- JSON-shaped values, as produced by `json.loads`: objects are ordered
association lists, matching Python dict insertion order. -/
inductive Json where
  | null : Json
  | bool : Bool → Json
  | num : Int → Json
  | str : String → Json
  | arr : List Json → Json
  | obj : List (String × Json) → Json

/-- Python `j == s` for a string literal `s`: true exactly when `j` is the
same string (no JSON value of another shape compares equal to a string). -/
def jsonEqStr (j : Json) (s : String) : Bool :=
  match j with
  | .str t => t = s
  | _ => false

/-- Python runtime errors that the source code does not catch. -/
inductive PyErr where
  | attributeError : PyErr
  | typeError : PyErr
  | keyError : PyErr
deriving DecidableEq

/-- Characters removed by Python `str.strip()` (ASCII whitespace). -/
def isPySpace (c : Char) : Bool :=
  c = ' ' || c = '\t' || c = '\n' || c = '\r' || c = '\x0b' || c = '\x0c'

/-- Python `str.strip()` on a character list: drop leading and trailing
whitespace. -/
def stripChars (cs : List Char) : List Char :=
  ((cs.dropWhile isPySpace).reverse.dropWhile isPySpace).reverse

/-- Python `str.split('\n')`: split on every newline, keeping empty pieces. -/
def splitChar : List Char → List (List Char)
  | [] => [[]]
  | c :: rest =>
    if c = '\n' then [] :: splitChar rest
    else
      match splitChar rest with
      | [] => [[c]]
      | g :: gs => (c :: g) :: gs

/-- `stdout.strip().split('\n')` from `extract_info`. -/
def stdoutLines (stdout : String) : List String :=
  (splitChar (stripChars stdout.toList)).map List.asString

/-- Python truthiness of `line.strip()` (`True` iff some non-space char). -/
def nonBlank (l : String) : Bool :=
  !(stripChars l.toList).isEmpty

/-- Python `str.strip()` returning a string (used by `get_version`). -/
def pyStrip (s : String) : String :=
  (stripChars s.toList).asString

/-- `isPrefixList sep cs` is true iff `sep` is a prefix of `cs`. -/
def isPrefixList : List Char → List Char → Bool
  | [], _ => true
  | _ :: _, [] => false
  | a :: as, b :: bs => a == b && isPrefixList as bs

/-- Fuel-driven worker for `splitSep`; the fuel is an upper bound on the
number of characters still to scan, so it never runs out when called
through `splitSep`. -/
def splitSepFuel (sep : List Char) : Nat → List Char → List (List Char)
  | _, [] => [[]]
  | 0, cs => [cs]
  | fuel + 1, c :: rest =>
    if sep ≠ [] ∧ isPrefixList sep (c :: rest) then
      [] :: splitSepFuel sep fuel (List.drop (sep.length - 1) rest)
    else
      match splitSepFuel sep fuel rest with
      | [] => [[c]]
      | g :: gs => (c :: g) :: gs

/-- Python `str.split(sep)` for a non-empty separator: leftmost,
non-overlapping occurrences. -/
def splitSep (sep cs : List Char) : List (List Char) :=
  splitSepFuel sep cs.length cs

/-- Python `s.split(sep)` on strings. -/
def pySplit (s sep : String) : List String :=
  (splitSep sep.toList s.toList).map List.asString

/-- Python `needle in hay` for strings (substring containment). -/
def strContains (hay needle : String) : Bool :=
  needle == "" || (splitSep needle.toList hay.toList).length > 1

/-- Python `str.lower()` (ASCII range, which is all the source compares). -/
def charLower (c : Char) : Char :=
  if 'A' ≤ c ∧ c ≤ 'Z' then Char.ofNat (c.toNat + 32) else c

/-- Python `s.lower()` on strings. -/
def pyLower (s : String) : String :=
  (s.toList.map charLower).asString

/-- Python `sep.join(parts)`. -/
def pyJoin (sep : String) : List String → String
  | [] => ""
  | [x] => x
  | x :: xs => x ++ sep ++ pyJoin sep xs

/-- Python truthiness of a JSON-shaped value. -/
def pyTruthy : Json → Bool
  | .null => false
  | .bool b => b
  | .num n => n != 0
  | .str s => s != ""
  | .arr es => !es.isEmpty
  | .obj fs => !fs.isEmpty

/-- Python `d.get(k)`: `None` for a missing key, `AttributeError` when the
receiver is not a dict. -/
def dictGet (j : Json) (k : String) : Except PyErr Json :=
  match j with
  | .obj fields => .ok ((fields.lookup k).getD Json.null)
  | _ => .error .attributeError

/-- Python `d.get(k, default)`. -/
def dictGetD (j : Json) (k : String) (d : Json) : Except PyErr Json :=
  match j with
  | .obj fields => .ok ((fields.lookup k).getD d)
  | _ => .error .attributeError

/-- Python dict assignment `d[k] = v`: replace the value in place if the key
exists, otherwise append the pair at the end. -/
def setKey : List (String × Json) → String → Json → List (String × Json)
  | [], k, v => [(k, v)]
  | (k', v') :: rest, k, v =>
    if k' = k then (k, v) :: rest else (k', v') :: setKey rest k v

/-- Python `d[k] = v` on a JSON value: `TypeError` on a non-dict receiver. -/
def dictSet (j : Json) (k : String) (v : Json) : Except PyErr Json :=
  match j with
  | .obj fields => .ok (.obj (setKey fields k v))
  | _ => .error .typeError

/-- Python `k in j` for a string key: key membership for dicts, substring
test for strings, element membership for lists, `TypeError` otherwise. -/
def pyContains (j : Json) (k : String) : Except PyErr Bool :=
  match j with
  | .obj fields => .ok (fields.lookup k).isSome
  | .str s => .ok (strContains s k)
  | .arr es => .ok (es.any (fun e => jsonEqStr e k))
  | _ => .error .typeError

/-- Python subscription `j[k]` with a string key: `KeyError` for a missing
dict key, `TypeError` on non-dict receivers. -/
def dictGetItem (j : Json) (k : String) : Except PyErr Json :=
  match j with
  | .obj fields =>
    match fields.lookup k with
    | some v => .ok v
    | none => .error .keyError
  | _ => .error .typeError

/-- Python `for x in j`: lists yield their elements, strings their
characters, dicts their keys; other values raise `TypeError`. -/
def pyIter (j : Json) : Except PyErr (List Json) :=
  match j with
  | .arr es => .ok es
  | .str s => .ok (s.toList.map (fun c => Json.str c.toString))
  | .obj fields => .ok (fields.map (fun p => Json.str p.1))
  | _ => .error .typeError

/-- The entry-collection loop of `extract_info`: parse every line whose
`strip()` is truthy, in order; any decode failure aborts with `none`. -/
def parseEntries (parse : String → Option Json) : List String → Option (List Json)
  | [] => some []
  | l :: ls =>
    if nonBlank l then
      match parse l with
      | none => none
      | some j => (parseEntries parse ls).map (fun es => j :: es)
    else parseEntries parse ls

/-- `YTDLPManager.extract_info`, given the observable process outcome.
Non-zero exit and `json.JSONDecodeError` yield `.ok none` (the `except`
clause); an `AttributeError` from `playlist_info.get` on a non-dict first
document is not caught by the source and surfaces as `.error`. -/
def extract_info (parse : String → Option Json) (out : Outcome) :
    Except PyErr (Option Json) :=
  if out.returncode ≠ 0 then .ok none
  else if (stdoutLines out.stdout).length = 1 then
    .ok (parse ((stdoutLines out.stdout).headD ""))
  else
    match parse ((stdoutLines out.stdout).headD "") with
      | none => .ok none
      | some playlist_info =>
        match parseEntries parse (stdoutLines out.stdout) with
        | none => .ok none
        | some entries =>
          match dictGet playlist_info "_type" with
          | .error e => .error e
          | .ok t =>
            if jsonEqStr t "playlist" then
              match dictSet playlist_info "entries" (Json.arr (entries.drop 1)) with
              | .error e => .error e
              | .ok updated => .ok (some updated)
            else
              .ok (some (Json.obj
                [("entries", Json.arr entries), ("_type", Json.str "multi_video")]))

/-- `YTDLPManager.get_version`, given the probe's outcome. -/
def get_version (out : Outcome) : Option String :=
  if out.returncode = 0 then some (pyStrip out.stdout) else none

/-- Result of `check_availability` together with whether the `--version`
probe was invoked (operational trace of the external call). -/
structure AvailabilityResult where
  result : Bool
  probeRan : Bool
deriving DecidableEq

/-- `YTDLPManager.check_availability`: a non-default path that does not
exist on disk returns `False` before the probe; otherwise the probe runs
and availability is `version is not None`. -/
def check_availability (ytdlp_path : String) (fsExists : String → Bool)
    (probe : Outcome) : AvailabilityResult :=
  if ytdlp_path ≠ "yt-dlp" ∧ fsExists ytdlp_path = false then
    ⟨false, false⟩
  else
    ⟨(get_version probe).isSome, true⟩

/-- `YTDLPManager.get_formats`: `info['formats']` when
`info and 'formats' in info`, else `None`. -/
def get_formats (parse : String → Option Json) (out : Outcome) :
    Except PyErr (Option Json) :=
  match extract_info parse out with
  | .error e => .error e
  | .ok none => .ok none
  | .ok (some info) =>
    if pyTruthy info then
      match pyContains info "formats" with
      | .error e => .error e
      | .ok true => (dictGetItem info "formats").map some
      | .ok false => .ok none
    else .ok none

/-- `YTDLPManager.get_subtitles`: wraps `subtitles` and
`automatic_captions` (each defaulting to `{}`) when `info` is truthy. -/
def get_subtitles (parse : String → Option Json) (out : Outcome) :
    Except PyErr (Option Json) :=
  match extract_info parse out with
  | .error e => .error e
  | .ok none => .ok none
  | .ok (some info) =>
    if pyTruthy info then
      match dictGetD info "subtitles" (Json.obj []) with
      | .error e => .error e
      | .ok subs =>
        match dictGetD info "automatic_captions" (Json.obj []) with
        | .error e => .error e
        | .ok autos =>
          .ok (some (Json.obj
            [("subtitles", subs), ("automatic_captions", autos)]))
    else .ok none

/-- `YTDLPManager.get_thumbnail_info`: `info['thumbnails']` when
`info and 'thumbnails' in info`, else `None`. -/
def get_thumbnail_info (parse : String → Option Json) (out : Outcome) :
    Except PyErr (Option Json) :=
  match extract_info parse out with
  | .error e => .error e
  | .ok none => .ok none
  | .ok (some info) =>
    if pyTruthy info then
      match pyContains info "thumbnails" with
      | .error e => .error e
      | .ok true => (dictGetItem info "thumbnails").map some
      | .ok false => .ok none
    else .ok none

/-- The named download options read by `build_download_command` via
`options.get(...)`, with the types its callers supply. A `none` field is an
absent key; Python truthiness of present values is checked separately. -/
structure DownloadOptions where
  format_id : Option String := none
  resolution : Option String := none
  output_path : Option String := none
  is_playlist : Bool := false
  playlist_items : Option String := none
  subtitle_langs : Option (List String) := none
  merge_subs : Bool := false
  enable_sponsorblock : Bool := false
  sponsorblock_categories : Option (List String) := none
  save_description : Bool := false
  embed_chapters : Bool := false
  cookie_file : Option String := none
  browser_cookies : Option String := none
  rate_limit : Option String := none
  download_section : Option String := none
  force_keyframes : Bool := false

/-- Python truthiness of `options.get(key)` for an optional string value. -/
def optStrTruthy : Option String → Bool
  | none => false
  | some s => s != ""

/-- Python truthiness of `options.get(key)` for an optional list value. -/
def optListTruthy : Option (List String) → Bool
  | none => false
  | some l => !l.isEmpty

/-- `format_id.split("-drc")[0] if "-drc" in format_id else format_id`. -/
def cleanFormatId (s : String) : String :=
  if (pySplit s "-drc").length > 1 then (pySplit s "-drc").headD s else s

/-- `str(PurePath(a) / b)` for the relative templates the source joins. -/
def pathJoin (a b : String) : String :=
  a ++ "/" ++ b

/-- The format-lookup loop: first entry whose `format_id` equals the cleaned
id (`fmt.get` raises `AttributeError` on a non-dict entry). -/
def findFormat (clean : String) : List Json → Except PyErr (Option Json)
  | [] => .ok none
  | fmt :: rest =>
    match dictGet fmt "format_id" with
    | .error e => .error e
    | .ok fid =>
      if jsonEqStr fid clean then .ok (some fmt) else findFormat clean rest

/-- The audio-only test on a matched format:
`fmt.get('vcodec') == 'none' or 'audio only' in fmt.get('format_note', '').lower()`
(`.lower()` on a non-string note raises `AttributeError`). -/
def audioCheck (fmt : Json) : Except PyErr Bool :=
  match dictGet fmt "vcodec" with
  | .error e => .error e
  | .ok vc =>
    if jsonEqStr vc "none" then .ok true
    else
      match dictGetD fmt "format_note" (Json.str "") with
      | .error e => .error e
      | .ok (Json.str note) => .ok (strContains (pyLower note) "audio only")
      | .ok _ => .error .attributeError

/-- The `is_audio_format` computation of `build_download_command`: false
when extraction failed, `info` is falsy, `formats` is absent, or no entry
matches; otherwise `audioCheck` on the first match. -/
def isAudioFormat (info : Option Json) (clean : String) : Except PyErr Bool :=
  match info with
  | none => .ok false
  | some j =>
    if pyTruthy j then
      match pyContains j "formats" with
      | .error e => .error e
      | .ok false => .ok false
      | .ok true =>
        match dictGetItem j "formats" with
        | .error e => .error e
        | .ok fmts =>
          match pyIter fmts with
          | .error e => .error e
          | .ok fmtList =>
            match findFormat clean fmtList with
            | .error e => .error e
            | .ok none => .ok false
            | .ok (some fmt) => audioCheck fmt
    else .ok false

/-- The `ext` test on the matched format in the merge branch. A truthy
non-string extension would be inserted verbatim by the source and make the
later process spawn fail on a non-string argument; that unreachable-for-JSON
shape is modelled as a `TypeError`. -/
def extCheck (fmt : Json) : Except PyErr (List String) :=
  match dictGet fmt "ext" with
  | .error e => .error e
  | .ok (Json.str s) =>
    if s != "" then .ok ["--merge-output-format", s] else .ok []
  | .ok v => if pyTruthy v then .error .typeError else .ok []

/-- The `--merge-output-format` tokens of the non-audio branch: re-finds the
matched format and keys on its `ext` field. -/
def mergeArgs (info : Option Json) (clean : String) : Except PyErr (List String) :=
  match info with
  | none => .ok []
  | some j =>
    if pyTruthy j then
      match pyContains j "formats" with
      | .error e => .error e
      | .ok false => .ok []
      | .ok true =>
        match dictGetItem j "formats" with
        | .error e => .error e
        | .ok fmts =>
          match pyIter fmts with
          | .error e => .error e
          | .ok fmtList =>
            match findFormat clean fmtList with
            | .error e => .error e
            | .ok none => .ok []
            | .ok (some fmt) => extCheck fmt
    else .ok []

/-- Format-selection tokens (step 1 of `build_download_command`): `-f` from
a truthy `format_id` (classifying audio-only via `extract_info`), else
`-S res:<value>` from a truthy `resolution`, else nothing. -/
def formatSelectionArgs (parse : String → Option Json) (out : Outcome)
    (opts : DownloadOptions) : Except PyErr (List String) :=
  if optStrTruthy opts.format_id then
    let format_id := opts.format_id.getD ""
    let clean_format_id := cleanFormatId format_id
    match extract_info parse out with
    | .error e => .error e
    | .ok info =>
      match isAudioFormat info clean_format_id with
      | .error e => .error e
      | .ok true => .ok ["-f", clean_format_id]
      | .ok false =>
        match mergeArgs info clean_format_id with
        | .error e => .error e
        | .ok margs => .ok (["-f", clean_format_id ++ "+bestaudio/best"] ++ margs)
  else if optStrTruthy opts.resolution then
    .ok ["-S", "res:" ++ (opts.resolution.getD "")]
  else .ok []

/-- Output template tokens (step 2): directory joined with the playlist or
single-item template; `cwd` stands for `Path.cwd()`. -/
def outputTemplateArgs (cwd : String) (opts : DownloadOptions) : List String :=
  let output_path := opts.output_path.getD cwd
  if opts.is_playlist then
    ["-o", pathJoin output_path "%(playlist_title)s/%(title)s_%(resolution)s.%(ext)s"]
  else
    ["-o", pathJoin output_path "%(title)s_%(resolution)s.%(ext)s"]

/-- `--playlist-items` tokens (step 4). -/
def playlistItemsArgs (opts : DownloadOptions) : List String :=
  if optStrTruthy opts.playlist_items then
    ["--playlist-items", opts.playlist_items.getD ""]
  else []

/-- Subtitle tokens (step 5): language codes are the part of each selection
before `" - "`. -/
def subtitleArgs (opts : DownloadOptions) : List String :=
  if optListTruthy opts.subtitle_langs then
    let langs := opts.subtitle_langs.getD []
    let lang_codes := langs.map (fun s => (pySplit s " - ").headD s)
    "--write-subs" ::
      (if !lang_codes.isEmpty then
        ["--sub-langs", pyJoin "," lang_codes, "--write-auto-subs"]
          ++ (if opts.merge_subs then ["--embed-subs"] else [])
      else [])
  else []

/-- SponsorBlock tokens (step 6): need both the flag and a truthy list. -/
def sponsorblockArgs (opts : DownloadOptions) : List String :=
  if opts.enable_sponsorblock && optListTruthy opts.sponsorblock_categories then
    ["--sponsorblock-remove", pyJoin "," (opts.sponsorblock_categories.getD [])]
  else []

/-- `--write-description` token (step 7). -/
def descriptionArgs (opts : DownloadOptions) : List String :=
  if opts.save_description then ["--write-description"] else []

/-- `--embed-chapters` token (step 7). -/
def chapterArgs (opts : DownloadOptions) : List String :=
  if opts.embed_chapters then ["--embed-chapters"] else []

/-- Cookie tokens (step 8): file takes precedence over browser source. -/
def cookieArgs (opts : DownloadOptions) : List String :=
  if optStrTruthy opts.cookie_file then
    ["--cookies", opts.cookie_file.getD ""]
  else if optStrTruthy opts.browser_cookies then
    ["--cookies-from-browser", opts.browser_cookies.getD ""]
  else []

/-- `-r` tokens (step 9). -/
def rateLimitArgs (opts : DownloadOptions) : List String :=
  if optStrTruthy opts.rate_limit then ["-r", opts.rate_limit.getD ""] else []

/-- `--download-sections` tokens (step 10), with optional keyframe forcing. -/
def downloadSectionArgs (opts : DownloadOptions) : List String :=
  if optStrTruthy opts.download_section then
    ["--download-sections", opts.download_section.getD ""]
      ++ (if opts.force_keyframes then ["--force-keyframes-at-cuts"] else [])
  else []

/-- Steps 2-11 of `build_download_command`: everything after format
selection, ending with the URL. -/
def restArgs (cwd url : String) (opts : DownloadOptions) : List String :=
  outputTemplateArgs cwd opts ++ ["--force-overwrites"] ++ playlistItemsArgs opts
    ++ subtitleArgs opts ++ sponsorblockArgs opts ++ descriptionArgs opts
    ++ chapterArgs opts ++ cookieArgs opts ++ rateLimitArgs opts
    ++ downloadSectionArgs opts ++ [url]

/-- `YTDLPManager.build_download_command`: the executable path, then format
selection, then the remaining option tokens, with the URL last. The internal
`extract_info` call's process outcome is the `out` argument. -/
def build_download_command (parse : String → Option Json) (out : Outcome)
    (ytdlp_path cwd url : String) (opts : DownloadOptions) :
    Except PyErr (List String) :=
  match formatSelectionArgs parse out opts with
  | .error e => .error e
  | .ok fmtArgs => .ok (ytdlp_path :: (fmtArgs ++ restArgs cwd url opts))

/-! Concrete sample data used to instantiate the theorems below.
`sampleParse` is `json.loads` restricted to the handful of stdout lines the
instances use; every mapping it performs agrees with real JSON parsing. -/

/-- An audio-only format entry (`vcodec == "none"`). -/
def fmt140 : Json :=
  Json.obj [("format_id", Json.str "140"), ("vcodec", Json.str "none"),
    ("ext", Json.str "m4a")]

/-- A video format entry with a known extension. -/
def fmt137 : Json :=
  Json.obj [("format_id", Json.str "137"), ("vcodec", Json.str "avc1"),
    ("format_note", Json.str "1080p"), ("ext", Json.str "mp4")]

/-- A single-video metadata document carrying a `formats` list. -/
def formatsInfo : Json :=
  Json.obj [("formats", Json.arr [fmt140, fmt137])]

/-- The stdout line that parses to `formatsInfo`. -/
def formatsLine : String :=
  "\x7b\"formats\": [\x7b\"format_id\": \"140\", \"vcodec\": \"none\", \"ext\": \"m4a\"\x7d, \x7b\"format_id\": \"137\", \"vcodec\": \"avc1\", \"format_note\": \"1080p\", \"ext\": \"mp4\"\x7d]\x7d"

/-- The stdout line of a playlist header document. -/
def playlistLine : String :=
  "\x7b\"_type\": \"playlist\", \"title\": \"T\"\x7d"

/-- The playlist header document. -/
def playlistHeader : List (String × Json) :=
  [("_type", Json.str "playlist"), ("title", Json.str "T")]

/-- A fragment of `json.loads`: the finitely many stdout lines used by the
concrete instances below, each mapped exactly as real JSON parsing would. -/
def sampleParse (line : String) : Option Json :=
  if line = "5" then some (Json.num 5)
  else if line = "6" then some (Json.num 6)
  else if line = "\x7b\x7d" then some (Json.obj [])
  else if line = playlistLine then some (Json.obj playlistHeader)
  else if line = "\x7b\"id\": \"b\"\x7d" then some (Json.obj [("id", Json.str "b")])
  else if line = "\x7b\"id\": \"c\"\x7d" then some (Json.obj [("id", Json.str "c")])
  else if line = formatsLine then some formatsInfo
  else none

/-! Helper lemmas. -/

set_option maxRecDepth 100000

theorem toList_asString (l : List Char) : l.asString.toList = l := rfl

theorem splitChar_ne_nil : ∀ cs : List Char, splitChar cs ≠ []
  | [] => by simp [splitChar]
  | c :: rest => by
    unfold splitChar
    by_cases h : c = '\n'
    · simp [h]
    · simp only [h, if_false]
      cases hh : splitChar rest <;> simp

theorem splitChar_headD (cs : List Char) :
    (splitChar cs).headD [] = cs.takeWhile (fun c => !(c == '\n')) := by
  induction cs with
  | nil => simp [splitChar]
  | cons c rest ih =>
    unfold splitChar
    by_cases h : c = '\n'
    · simp [h]
    · simp only [h, if_false]
      cases hh : splitChar rest with
      | nil => exact absurd hh (splitChar_ne_nil rest)
      | cons g gs =>
        rw [hh] at ih
        simp only [List.headD_cons] at ih
        simp [List.takeWhile_cons, h, ih]

theorem head?_dropWhile_not {α} (p : α → Bool) :
    ∀ (l : List α) {c}, (l.dropWhile p).head? = some c → p c = false := by
  intro l
  induction l with
  | nil => intro c h; simp [List.dropWhile] at h
  | cons a l ih =>
    intro c h
    rw [List.dropWhile_cons] at h
    by_cases hp : p a
    · rw [if_pos hp] at h; exact ih h
    · rw [if_neg hp] at h
      simp only [List.head?_cons, Option.some.injEq] at h
      subst h
      exact Bool.not_eq_true _ ▸ (by simpa using hp)

theorem dropWhile_eq_stripChars_append (cs : List Char) :
    cs.dropWhile isPySpace =
      stripChars cs ++
        (((cs.dropWhile isPySpace).reverse.takeWhile isPySpace).reverse) := by
  unfold stripChars
  have h := List.takeWhile_append_dropWhile (p := isPySpace)
    (l := (cs.dropWhile isPySpace).reverse)
  calc cs.dropWhile isPySpace
      = (cs.dropWhile isPySpace).reverse.reverse := (List.reverse_reverse _).symm
    _ = (((cs.dropWhile isPySpace).reverse.takeWhile isPySpace) ++
          ((cs.dropWhile isPySpace).reverse.dropWhile isPySpace)).reverse := by rw [h]
    _ = _ := by rw [List.reverse_append]

theorem stripChars_head_not_space {cs : List Char} {c : Char} {r : List Char}
    (h : stripChars cs = c :: r) : isPySpace c = false := by
  have hpre := dropWhile_eq_stripChars_append cs
  rw [h] at hpre
  apply head?_dropWhile_not isPySpace cs
  rw [hpre]
  simp

theorem stripChars_cons_ne_nil {c : Char} {r : List Char}
    (h : isPySpace c = false) : stripChars (c :: r) ≠ [] := by
  intro hnil
  have hd : (c :: r).dropWhile isPySpace = c :: r := by
    rw [List.dropWhile_cons, if_neg (by simp [h])]
  have hpre := dropWhile_eq_stripChars_append (c :: r)
  rw [hnil, hd, List.nil_append] at hpre
  have hc : c ∈ ((c :: r).reverse.takeWhile isPySpace) := by
    have : c ∈ ((c :: r).reverse.takeWhile isPySpace).reverse := by
      rw [← hpre]; exact List.mem_cons_self c r
    simpa using this
  have := List.mem_takeWhile_imp hc
  rw [h] at this
  exact Bool.noConfusion this

theorem stdoutLines_ne_nil (s : String) : stdoutLines s ≠ [] := by
  unfold stdoutLines
  intro h
  exact splitChar_ne_nil (stripChars s.toList) (List.map_eq_nil_iff.mp h)

theorem stdoutLines_head_nonBlank (s : String)
    (hlen : 1 < (stdoutLines s).length) :
    nonBlank ((stdoutLines s).headD "") = true := by
  cases ht : stripChars s.toList with
  | nil =>
    exfalso
    unfold stdoutLines at hlen
    rw [ht] at hlen
    simp [splitChar] at hlen
  | cons c t' =>
    have hc : isPySpace c = false := stripChars_head_not_space ht
    obtain ⟨g, gs, hg⟩ : ∃ g gs, splitChar (c :: t') = g :: gs := by
      cases hh : splitChar (c :: t') with
      | nil => exact absurd hh (splitChar_ne_nil _)
      | cons g gs => exact ⟨g, gs, rfl⟩
    have hhead : (stdoutLines s).headD "" = g.asString := by
      unfold stdoutLines
      rw [ht, hg]
      rfl
    have hgval : g = c :: t'.takeWhile (fun x => !(x == '\n')) := by
      have hsp := splitChar_headD (c :: t')
      rw [hg] at hsp
      simp only [List.headD_cons] at hsp
      have hcnl : c ≠ '\n' := by
        intro hcc
        rw [hcc] at hc
        simp [isPySpace] at hc
      rw [hsp, List.takeWhile_cons, if_pos (by simp [hcnl])]
    rw [hhead]
    unfold nonBlank
    rw [toList_asString, hgval]
    have hne := stripChars_cons_ne_nil (r := t'.takeWhile (fun x => !(x == '\n'))) hc
    simpa using hne

theorem parseEntries_eq_some (parse : String → Option Json) :
    ∀ ls : List String, (∀ l ∈ ls, nonBlank l = true → (parse l).isSome) →
      parseEntries parse ls = some ((ls.filter nonBlank).filterMap parse) := by
  intro ls
  induction ls with
  | nil => intro _; simp [parseEntries]
  | cons l ls ih =>
    intro h
    unfold parseEntries
    by_cases hb : nonBlank l
    · rw [if_pos hb]
      cases hp : parse l with
      | none =>
        have := h l (List.mem_cons_self l ls) hb
        rw [hp] at this
        simp at this
      | some j =>
        rw [ih (fun x hx hbx => h x (List.mem_cons_of_mem l hx) hbx)]
        simp [List.filter_cons, hb, List.filterMap_cons, hp]
    · rw [if_neg hb]
      rw [ih (fun x hx hbx => h x (List.mem_cons_of_mem l hx) hbx)]
      simp [List.filter_cons, hb]

theorem parseEntries_eq_none (parse : String → Option Json) {l : String} :
    ∀ ls : List String, l ∈ ls → nonBlank l = true → parse l = none →
      parseEntries parse ls = none := by
  intro ls
  induction ls with
  | nil => intro h; exact absurd h (List.not_mem_nil l)
  | cons x ls ih =>
    intro hmem hnb hp
    unfold parseEntries
    rcases List.mem_cons.mp hmem with heq | hmem'
    · subst heq
      rw [if_pos hnb, hp]
    · by_cases hb : nonBlank x
      · rw [if_pos hb]
        cases hpx : parse x with
        | none => rfl
        | some j => rw [ih hmem' hnb hp]; rfl
      · rw [if_neg hb]
        exact ih hmem' hnb hp

theorem lookup_ne_nil {fields : List (String × Json)} {k : String} {v : Json}
    (h : fields.lookup k = some v) : fields ≠ [] := by
  intro he
  subst he
  simp [List.lookup] at h

theorem getLast?_append_singleton {α} (l : List α) (a : α) :
    (l ++ [a]).getLast? = some a := by
  induction l with
  | nil => rfl
  | cons x l ih =>
    rw [List.cons_append, List.getLast?_cons, ih]
    cases l <;> simp_all

theorem dictGet_ok_obj {fmt : Json} {k : String} {v : Json}
    (h : dictGet fmt k = .ok v) : ∃ ff, fmt = Json.obj ff := by
  cases fmt <;> simp [dictGet] at h <;> exact ⟨_, rfl⟩

theorem dictGetD_ok_obj {fmt : Json} {k : String} {d v : Json}
    (h : dictGetD fmt k d = .ok v) : ∃ ff, fmt = Json.obj ff := by
  cases fmt <;> simp [dictGetD] at h <;> exact ⟨_, rfl⟩

theorem isAudioFormat_eq_audioCheck {fields : List (String × Json)}
    {fmts : List Json} {clean : String} {fmt : Json}
    (hl : fields.lookup "formats" = some (Json.arr fmts))
    (hf : findFormat clean fmts = .ok (some fmt)) :
    isAudioFormat (some (Json.obj fields)) clean = audioCheck fmt := by
  cases fields with
  | nil => simp [List.lookup] at hl
  | cons p rest =>
    simp [isAudioFormat, pyTruthy, pyContains, dictGetItem, pyIter, hl, hf]

theorem mergeArgs_eq_extCheck {fields : List (String × Json)}
    {fmts : List Json} {clean : String} {fmt : Json}
    (hl : fields.lookup "formats" = some (Json.arr fmts))
    (hf : findFormat clean fmts = .ok (some fmt)) :
    mergeArgs (some (Json.obj fields)) clean = extCheck fmt := by
  cases fields with
  | nil => simp [List.lookup] at hl
  | cons p rest =>
    simp [mergeArgs, pyTruthy, pyContains, dictGetItem, pyIter, hl, hf]

theorem isAudioFormat_no_match_false {info : Option Json} {clean : String}
    (h : info = none ∨
      (∃ fields, info = some (Json.obj fields) ∧ fields.lookup "formats" = none) ∨
      (∃ fields fmts, info = some (Json.obj fields) ∧
        fields.lookup "formats" = some (Json.arr fmts) ∧
        findFormat clean fmts = .ok none)) :
    isAudioFormat info clean = .ok false ∧ mergeArgs info clean = .ok [] := by
  rcases h with h | ⟨fields, h, hl⟩ | ⟨fields, fmts, h, hl, hf⟩
  · subst h; exact ⟨rfl, rfl⟩
  · subst h
    cases fields with
    | nil => exact ⟨rfl, rfl⟩
    | cons p rest =>
      constructor <;> simp [isAudioFormat, mergeArgs, pyTruthy, pyContains, hl]
  · subst h
    cases fields with
    | nil => simp [List.lookup] at hl
    | cons p rest =>
      constructor <;>
        simp [isAudioFormat, mergeArgs, pyTruthy, pyContains, dictGetItem,
          pyIter, hl, hf]

/-- Reduction of `extract_info` on a zero exit with multi-line stdout. -/
theorem extract_info_multi (parse : String → Option Json) (out : Outcome)
    (hrc : out.returncode = 0)
    (hne1 : (stdoutLines out.stdout).length ≠ 1) :
    extract_info parse out =
      match parse ((stdoutLines out.stdout).headD "") with
      | none => .ok none
      | some playlist_info =>
        match parseEntries parse (stdoutLines out.stdout) with
        | none => .ok none
        | some entries =>
          match dictGet playlist_info "_type" with
          | .error e => .error e
          | .ok t =>
            if jsonEqStr t "playlist" then
              match dictSet playlist_info "entries" (Json.arr (entries.drop 1)) with
              | .error e => .error e
              | .ok updated => .ok (some updated)
            else
              .ok (some (Json.obj
                [("entries", Json.arr entries), ("_type", Json.str "multi_video")])) := by
  unfold extract_info
  rw [if_neg (by simp [hrc]), if_neg hne1]

/-! Claim theorems. -/

/-- C1: on a successful invocation with multi-line stdout whose lines all
parse and whose first parsed line is a mapping with `_type = "playlist"`,
`extract_info` returns that header mapping with its `entries` key set to
the parses of all subsequent non-empty lines, in order, the header line
excluded. -/
theorem extract_info_playlist_entries (parse : String → Option Json)
    (out : Outcome) (fields : List (String × Json))
    (hrc : out.returncode = 0)
    (hlen : 1 < (stdoutLines out.stdout).length)
    (hall : ∀ l ∈ stdoutLines out.stdout, nonBlank l = true → (parse l).isSome)
    (hhdr : parse ((stdoutLines out.stdout).headD "") = some (Json.obj fields))
    (htype : fields.lookup "_type" = some (Json.str "playlist")) :
    extract_info parse out =
      .ok (some (Json.obj (setKey fields "entries" (Json.arr
        ((((stdoutLines out.stdout).drop 1).filter nonBlank).filterMap parse))))) := by
  obtain ⟨l0, rest, hl⟩ : ∃ l0 rest, stdoutLines out.stdout = l0 :: rest := by
    cases h : stdoutLines out.stdout with
    | nil => exact absurd h (stdoutLines_ne_nil _)
    | cons a b => exact ⟨a, b, rfl⟩
  have hhead : (stdoutLines out.stdout).headD "" = l0 := by rw [hl]; rfl
  have hnb0 : nonBlank l0 = true := by
    have h := stdoutLines_head_nonBlank out.stdout hlen
    rwa [hhead] at h
  have hhdr0 : parse l0 = some (Json.obj fields) := by rwa [hhead] at hhdr
  have hpe : parseEntries parse (stdoutLines out.stdout) =
      some (Json.obj fields :: ((rest.filter nonBlank).filterMap parse)) := by
    rw [parseEntries_eq_some parse _ hall, hl, List.filter_cons, if_pos (by simp [hnb0]),
      List.filterMap_cons, hhdr0]
  rw [extract_info_multi parse out hrc (by omega), hhead, hhdr0, hpe]
  simp only [List.drop_succ_cons, List.drop_zero, dictGet, dictSet,
    Option.getD_some, htype, jsonEqStr]
  rw [if_pos (by simp), hl]
  simp

/-- C2 (amended): on a successful invocation with multi-line stdout whose
lines all parse and whose first parsed line is a mapping whose `_type` is
not `"playlist"`, `extract_info` returns the synthesized wrapper
`{entries: all parsed non-empty lines in order, _type: "multi_video"}`.
(For a non-mapping first document the source raises instead; see the
counterexample.) -/
theorem extract_info_multi_video (parse : String → Option Json)
    (out : Outcome) (fields : List (String × Json))
    (hrc : out.returncode = 0)
    (hlen : 1 < (stdoutLines out.stdout).length)
    (hall : ∀ l ∈ stdoutLines out.stdout, nonBlank l = true → (parse l).isSome)
    (hhdr : parse ((stdoutLines out.stdout).headD "") = some (Json.obj fields))
    (htype : jsonEqStr ((fields.lookup "_type").getD Json.null) "playlist" = false) :
    extract_info parse out =
      .ok (some (Json.obj
        [("entries", Json.arr
            (((stdoutLines out.stdout).filter nonBlank).filterMap parse)),
          ("_type", Json.str "multi_video")])) := by
  have hpe : parseEntries parse (stdoutLines out.stdout) =
      some (((stdoutLines out.stdout).filter nonBlank).filterMap parse) :=
    parseEntries_eq_some parse _ hall
  rw [extract_info_multi parse out hrc (by omega), hhdr, hpe]
  simp only [dictGet]
  rw [if_neg (by simp [htype])]

/-- C2, the claim as frozen is false on the code: both lines of
stdout `"5\n6"` are valid JSON and the first parsed document lacks
`_type = "playlist"`, yet `extract_info` raises `AttributeError`
(`playlist_info.get` on an `int`) instead of returning the synthesized
`multi_video` wrapper. -/
theorem extract_info_multi_video_counterexample :
    extract_info sampleParse ⟨0, "5\n6", ""⟩ = .error PyErr.attributeError := rfl

/-- C3: with a zero exit status, any non-empty stdout line that fails to
parse makes `extract_info` return `none`, whatever the other lines hold. -/
theorem extract_info_abort_on_decode_error (parse : String → Option Json)
    (out : Outcome) (l : String)
    (hrc : out.returncode = 0)
    (hmem : l ∈ stdoutLines out.stdout)
    (hnb : nonBlank l = true)
    (hfail : parse l = none) :
    extract_info parse out = .ok none := by
  by_cases hone : (stdoutLines out.stdout).length = 1
  · obtain ⟨l0, hl⟩ : ∃ l0, stdoutLines out.stdout = [l0] := by
      cases h : stdoutLines out.stdout with
      | nil => exact absurd h (stdoutLines_ne_nil _)
      | cons a b =>
        rw [h] at hone
        simp at hone
        subst hone
        exact ⟨a, h ▸ rfl⟩
    have hl0 : l = l0 := by
      rw [hl] at hmem
      simpa using hmem
    have hf0 : parse l0 = none := by rw [← hl0]; exact hfail
    unfold extract_info
    rw [if_neg (by simp [hrc]), if_pos hone, hl]
    simp [hf0]
  · rw [extract_info_multi parse out hrc hone]
    cases hp : parse ((stdoutLines out.stdout).headD "") with
    | none => rfl
    | some playlist_info =>
      rw [parseEntries_eq_none parse _ hmem hnb hfail]

/-- Witness for C1 at a concrete three-line playlist dump. -/
theorem extract_info_playlist_entries_witness :
    extract_info sampleParse
        ⟨0, playlistLine ++ "\n\x7b\"id\": \"b\"\x7d\n\x7b\"id\": \"c\"\x7d", ""⟩ =
      .ok (some (Json.obj [("_type", Json.str "playlist"), ("title", Json.str "T"),
        ("entries", Json.arr
          [Json.obj [("id", Json.str "b")], Json.obj [("id", Json.str "c")]])])) := by
  have h := extract_info_playlist_entries sampleParse
    ⟨0, playlistLine ++ "\n\x7b\"id\": \"b\"\x7d\n\x7b\"id\": \"c\"\x7d", ""⟩
    playlistHeader rfl (by decide) (by decide) (by rfl) (by rfl)
  exact h.trans (by rfl)

/-- Witness for C2 (amended) at a concrete two-line non-playlist dump. -/
theorem extract_info_multi_video_witness :
    extract_info sampleParse ⟨0, "\x7b\x7d\n\x7b\"id\": \"b\"\x7d", ""⟩ =
      .ok (some (Json.obj
        [("entries", Json.arr [Json.obj [], Json.obj [("id", Json.str "b")]]),
          ("_type", Json.str "multi_video")])) := by
  have h := extract_info_multi_video sampleParse
    ⟨0, "\x7b\x7d\n\x7b\"id\": \"b\"\x7d", ""⟩ [] rfl (by decide) (by decide)
    (by rfl) (by rfl)
  exact h.trans (by rfl)

/-- Witness for C3: a parseable first line followed by a malformed line
still yields `none`. -/
theorem extract_info_abort_on_decode_error_witness :
    extract_info sampleParse ⟨0, "\x7b\x7d\nnot json", ""⟩ = .ok none := by
  exact extract_info_abort_on_decode_error sampleParse
    ⟨0, "\x7b\x7d\nnot json", ""⟩ "not json" rfl (by decide) (by decide) (by rfl)

/-- C4 is violated by the code: on a zero exit whose stdout is the valid
JSON document `5`, `get_subtitles` evaluates `info.get` on an `int` and the
uncaught `AttributeError` propagates to the caller instead of becoming an
absence value. -/
theorem get_subtitles_uncaught_attribute_error :
    get_subtitles sampleParse ⟨0, "5", ""⟩ = .error PyErr.attributeError := rfl

/-- C7: a non-zero exit status makes `extract_info`, `get_formats`,
`get_subtitles` and `get_thumbnail_info` all return `none`. -/
theorem gateway_none_on_nonzero_exit (parse : String → Option Json)
    (out : Outcome) (h : out.returncode ≠ 0) :
    extract_info parse out = .ok none ∧ get_formats parse out = .ok none ∧
    get_subtitles parse out = .ok none ∧
    get_thumbnail_info parse out = .ok none := by
  have he : extract_info parse out = .ok none := by
    unfold extract_info
    rw [if_pos h]
  refine ⟨he, ?_, ?_, ?_⟩
  · unfold get_formats; rw [he]
  · unfold get_subtitles; rw [he]
  · unfold get_thumbnail_info; rw [he]

/-- Witness for C7 at exit status 1. -/
theorem gateway_none_on_nonzero_exit_witness :
    extract_info sampleParse ⟨1, "", "boom"⟩ = .ok none ∧
    get_formats sampleParse ⟨1, "", "boom"⟩ = .ok none ∧
    get_subtitles sampleParse ⟨1, "", "boom"⟩ = .ok none ∧
    get_thumbnail_info sampleParse ⟨1, "", "boom"⟩ = .ok none :=
  gateway_none_on_nonzero_exit sampleParse ⟨1, "", "boom"⟩ (by decide)

/-- C8 (amended): when `extract_info` yields a mapping, `get_subtitles`
wraps its `subtitles` and `automatic_captions` fields (defaulting to `{}`)
if the mapping is truthy (non-empty), and yields `none` for the falsy empty
mapping; when `extract_info` yields `none`, so does `get_subtitles`. -/
theorem get_subtitles_of_extract_info (parse : String → Option Json)
    (out : Outcome) :
    (∀ fields, extract_info parse out = .ok (some (Json.obj fields)) →
      get_subtitles parse out = .ok (if fields.isEmpty then none else
        some (Json.obj
          [("subtitles", (fields.lookup "subtitles").getD (Json.obj [])),
            ("automatic_captions",
              (fields.lookup "automatic_captions").getD (Json.obj []))])))
    ∧ (extract_info parse out = .ok none → get_subtitles parse out = .ok none) := by
  constructor
  · intro fields h
    unfold get_subtitles
    rw [h]
    cases fields with
    | nil => rfl
    | cons p rest => simp [pyTruthy, dictGetD]
  · intro h
    unfold get_subtitles
    rw [h]

/-- Witness for C8 (amended) on a mapping without subtitle fields. -/
theorem get_subtitles_of_extract_info_witness :
    get_subtitles sampleParse ⟨0, formatsLine, ""⟩ =
      .ok (some (Json.obj
        [("subtitles", Json.obj []), ("automatic_captions", Json.obj [])])) := by
  have h := (get_subtitles_of_extract_info sampleParse ⟨0, formatsLine, ""⟩).1
    [("formats", Json.arr [fmt140, fmt137])] (by rfl)
  exact h.trans (by rfl)

/-- C8, the claim as frozen is false on the code: on stdout `"{}"`,
`extract_info` returns the (empty) mapping, not `none`, yet `get_subtitles`
returns `none` because the empty dict is falsy under `if info:`. -/
theorem get_subtitles_counterexample :
    extract_info sampleParse ⟨0, "\x7b\x7d", ""⟩ = .ok (some (Json.obj [])) ∧
    get_subtitles sampleParse ⟨0, "\x7b\x7d", ""⟩ = .ok none :=
  ⟨rfl, rfl⟩

/-- C9: a non-default executable reference whose path does not exist makes
`check_availability` return false without running the version probe. -/
theorem check_availability_missing_file (ytdlp_path : String)
    (fsExists : String → Bool) (probe : Outcome)
    (hpath : ytdlp_path ≠ "yt-dlp") (hmiss : fsExists ytdlp_path = false) :
    check_availability ytdlp_path fsExists probe = ⟨false, false⟩ := by
  unfold check_availability
  rw [if_pos ⟨hpath, hmiss⟩]

/-- Witness for C9 at a concrete missing path (the probe outcome would have
reported a valid version, and is ignored). -/
theorem check_availability_missing_file_witness :
    check_availability "/opt/tools/yt-dlp" (fun _ => false)
      ⟨0, "2024.03.10\n", ""⟩ = ⟨false, false⟩ :=
  check_availability_missing_file "/opt/tools/yt-dlp" (fun _ => false)
    ⟨0, "2024.03.10\n", ""⟩ (by decide) rfl

/-- C6: whatever the URL, options, and extraction outcome, a command vector
returned by `build_download_command` is non-empty and ends with the URL. -/
theorem build_download_command_ends_with_url (parse : String → Option Json)
    (out : Outcome) (ytdlp_path cwd url : String) (opts : DownloadOptions)
    (cmd : List String)
    (h : build_download_command parse out ytdlp_path cwd url opts = .ok cmd) :
    cmd ≠ [] ∧ cmd.getLast? = some url := by
  unfold build_download_command at h
  cases hf : formatSelectionArgs parse out opts with
  | error e => rw [hf] at h; exact absurd h (by simp)
  | ok fargs =>
    rw [hf] at h
    simp only [Except.ok.injEq] at h
    subst h
    refine ⟨by simp, ?_⟩
    have hsplit : ytdlp_path :: (fargs ++ restArgs cwd url opts) =
        (ytdlp_path :: (fargs ++ (outputTemplateArgs cwd opts
          ++ ["--force-overwrites"] ++ playlistItemsArgs opts
          ++ subtitleArgs opts ++ sponsorblockArgs opts ++ descriptionArgs opts
          ++ chapterArgs opts ++ cookieArgs opts ++ rateLimitArgs opts
          ++ downloadSectionArgs opts))) ++ [url] := by
      unfold restArgs
      simp [List.append_assoc]
    rw [hsplit]
    exact getLast?_append_singleton _ _

/-- Witness for C6 with an empty option set and a failed extraction. -/
theorem build_download_command_ends_with_url_witness :
    (["yt-dlp", "-o", "./%(title)s_%(resolution)s.%(ext)s",
        "--force-overwrites", "u"] : List String) ≠ [] ∧
    (["yt-dlp", "-o", "./%(title)s_%(resolution)s.%(ext)s",
        "--force-overwrites", "u"] : List String).getLast? = some "u" :=
  build_download_command_ends_with_url sampleParse ⟨1, "", ""⟩ "yt-dlp" "."
    "u" {} _ (by rfl)

/-- C5: with a truthy `format_id`, the id used for lookup and in `-f` is
the `-drc`-stripped id; if the first matching format has `vcodec == "none"`
or an "audio only" note (checked in that order), the selection is exactly
`-f <id>` with no merge tokens; otherwise it is `-f <id>+bestaudio/best`
followed by `--merge-output-format <ext>` exactly when the matched format
carries a truthy string extension. -/
theorem build_download_command_format_id (parse : String → Option Json)
    (out : Outcome) (ytdlp_path cwd url fid : String) (opts : DownloadOptions)
    (fields : List (String × Json)) (fmts : List Json) (fmt : Json)
    (hfid : opts.format_id = some fid) (hne : fid ≠ "")
    (hinfo : extract_info parse out = .ok (some (Json.obj fields)))
    (hfmts : fields.lookup "formats" = some (Json.arr fmts))
    (hfind : findFormat (cleanFormatId fid) fmts = .ok (some fmt)) :
    ((dictGet fmt "vcodec" = .ok (Json.str "none") ∨
       (∃ note, dictGetD fmt "format_note" (Json.str "") = .ok (Json.str note) ∧
         strContains (pyLower note) "audio only" = true)) →
      build_download_command parse out ytdlp_path cwd url opts =
        .ok (ytdlp_path :: ["-f", cleanFormatId fid] ++ restArgs cwd url opts))
    ∧ (∀ vc note ext, dictGet fmt "vcodec" = .ok vc →
        jsonEqStr vc "none" = false →
        dictGetD fmt "format_note" (Json.str "") = .ok (Json.str note) →
        strContains (pyLower note) "audio only" = false →
        dictGet fmt "ext" = .ok (Json.str ext) → ext ≠ "" →
        build_download_command parse out ytdlp_path cwd url opts =
          .ok (ytdlp_path :: ["-f", cleanFormatId fid ++ "+bestaudio/best",
            "--merge-output-format", ext] ++ restArgs cwd url opts))
    ∧ (∀ vc vext, dictGet fmt "vcodec" = .ok vc →
        jsonEqStr vc "none" = false →
        (∃ note, dictGetD fmt "format_note" (Json.str "") = .ok (Json.str note) ∧
          strContains (pyLower note) "audio only" = false) →
        dictGet fmt "ext" = .ok vext → pyTruthy vext = false →
        build_download_command parse out ytdlp_path cwd url opts =
          .ok (ytdlp_path :: ["-f", cleanFormatId fid ++ "+bestaudio/best"]
            ++ restArgs cwd url opts)) := by
  have hfs : formatSelectionArgs parse out opts =
      (match audioCheck fmt with
       | .error e => .error e
       | .ok true => .ok ["-f", cleanFormatId fid]
       | .ok false =>
         match extCheck fmt with
         | .error e => .error e
         | .ok margs =>
           .ok (["-f", cleanFormatId fid ++ "+bestaudio/best"] ++ margs)) := by
    unfold formatSelectionArgs
    rw [hfid]
    simp only [Option.getD_some]
    rw [if_pos (by simp [optStrTruthy, hne]), hinfo]
    simp only [isAudioFormat_eq_audioCheck hfmts hfind,
      mergeArgs_eq_extCheck hfmts hfind]
  refine ⟨?_, ?_, ?_⟩
  · intro hAudio
    have hac : audioCheck fmt = .ok true := by
      rcases hAudio with hvc | ⟨note, hnote, hcont⟩
      · unfold audioCheck
        rw [hvc]
        simp [jsonEqStr]
      · obtain ⟨ff, rfl⟩ := dictGetD_ok_obj hnote
        unfold audioCheck
        simp only [dictGet]
        by_cases hvc : jsonEqStr ((ff.lookup "vcodec").getD Json.null) "none" = true
        · rw [if_pos hvc]
        · rw [if_neg hvc, hnote]
          simp [hcont]
    unfold build_download_command
    rw [hfs, hac]
    rfl
  · intro vc note ext hvc hvcne hnote hcont hext hextne
    have hac : audioCheck fmt = .ok false := by
      unfold audioCheck
      rw [hvc]
      simp only [hvcne, Bool.false_eq_true, if_false]
      rw [hnote]
      simp [hcont]
    have hec : extCheck fmt = .ok ["--merge-output-format", ext] := by
      unfold extCheck
      rw [hext]
      simp [hextne]
    unfold build_download_command
    rw [hfs, hac, hec]
    rfl
  · intro vc vext hvc hvcne hnote hext hfalsy
    have hac : audioCheck fmt = .ok false := by
      obtain ⟨note, hnote, hcont⟩ := hnote
      unfold audioCheck
      rw [hvc]
      simp only [hvcne, Bool.false_eq_true, if_false]
      rw [hnote]
      simp [hcont]
    have hec : extCheck fmt = .ok [] := by
      unfold extCheck
      rw [hext]
      cases vext with
      | str s =>
        have hs : s = "" := by simpa [pyTruthy] using hfalsy
        simp [hs]
      | null => rfl
      | bool b => simp [hfalsy]
      | num n => simp [hfalsy]
      | arr es => simp [hfalsy]
      | obj fs => simp [hfalsy]
    unfold build_download_command
    rw [hfs, hac, hec]
    simp

/-- Witness for C5 on the video branch: format `137` (vcodec `avc1`, note
`1080p`, extension `mp4`) selects `137+bestaudio/best` and merges to mp4. -/
theorem build_download_command_format_id_witness :
    build_download_command sampleParse ⟨0, formatsLine, ""⟩ "yt-dlp" "." "u"
        { format_id := some "137" } =
      .ok ["yt-dlp", "-f", "137+bestaudio/best", "--merge-output-format",
        "mp4", "-o", "./%(title)s_%(resolution)s.%(ext)s",
        "--force-overwrites", "u"] := by
  have h := (build_download_command_format_id sampleParse ⟨0, formatsLine, ""⟩
    "yt-dlp" "." "u" "137" { format_id := some "137" }
    [("formats", Json.arr [fmt140, fmt137])] [fmt140, fmt137] fmt137
    rfl (by decide) (by rfl) (by rfl) (by rfl)).2.1
    (Json.str "avc1") "1080p" "mp4" (by rfl) (by rfl) (by rfl) (by rfl)
    (by rfl) (by decide)
  exact h.trans (by rfl)

/-- C10: with a truthy `format_id` whose cleaned id matches no entry of the
extracted format list — including a failed extraction or a result without a
`formats` key — the selection is `-f <cleanid>+bestaudio/best` and no merge
tokens are emitted. -/
theorem build_download_command_unmatched_format (parse : String → Option Json)
    (out : Outcome) (ytdlp_path cwd url fid : String) (opts : DownloadOptions)
    (hfid : opts.format_id = some fid) (hne : fid ≠ "")
    (h : extract_info parse out = .ok none ∨
      (∃ fields, extract_info parse out = .ok (some (Json.obj fields)) ∧
        fields.lookup "formats" = none) ∨
      (∃ fields fmts, extract_info parse out = .ok (some (Json.obj fields)) ∧
        fields.lookup "formats" = some (Json.arr fmts) ∧
        findFormat (cleanFormatId fid) fmts = .ok none)) :
    build_download_command parse out ytdlp_path cwd url opts =
      .ok (ytdlp_path :: ["-f", cleanFormatId fid ++ "+bestaudio/best"]
        ++ restArgs cwd url opts) := by
  have hbase : ∀ info, extract_info parse out = .ok info →
      isAudioFormat info (cleanFormatId fid) = .ok false →
      mergeArgs info (cleanFormatId fid) = .ok [] →
      build_download_command parse out ytdlp_path cwd url opts =
        .ok (ytdlp_path :: ["-f", cleanFormatId fid ++ "+bestaudio/best"]
          ++ restArgs cwd url opts) := by
    intro info h0 hIA hMA
    unfold build_download_command formatSelectionArgs
    rw [hfid]
    simp only [Option.getD_some]
    rw [if_pos (by simp [optStrTruthy, hne]), h0]
    simp [hIA, hMA]
  rcases h with h0 | ⟨fields, h0, hl⟩ | ⟨fields, fmts, h0, hl, hf⟩
  · obtain ⟨hIA, hMA⟩ :=
      @isAudioFormat_no_match_false none (cleanFormatId fid) (Or.inl rfl)
    exact hbase none h0 hIA hMA
  · obtain ⟨hIA, hMA⟩ := isAudioFormat_no_match_false
      (Or.inr (Or.inl ⟨fields, rfl, hl⟩))
    exact hbase _ h0 hIA hMA
  · obtain ⟨hIA, hMA⟩ := isAudioFormat_no_match_false
      (Or.inr (Or.inr ⟨fields, fmts, rfl, hl, hf⟩))
    exact hbase _ h0 hIA hMA

/-- Witness for C10: format id `999` matches neither extracted format. -/
theorem build_download_command_unmatched_format_witness :
    build_download_command sampleParse ⟨0, formatsLine, ""⟩ "yt-dlp" "." "u"
        { format_id := some "999" } =
      .ok ["yt-dlp", "-f", "999+bestaudio/best", "-o",
        "./%(title)s_%(resolution)s.%(ext)s", "--force-overwrites", "u"] := by
  have h := build_download_command_unmatched_format sampleParse
    ⟨0, formatsLine, ""⟩ "yt-dlp" "." "u" "999" { format_id := some "999" }
    rfl (by decide)
    (Or.inr (Or.inr ⟨[("formats", Json.arr [fmt140, fmt137])],
      [fmt140, fmt137], by rfl, by rfl, by rfl⟩))
  exact h.trans (by rfl)

end YTSage
